import Mathlib

/-!
Verification of the crypto_top100_automation pipeline (src/main.py).

The script ranks candidate assets, fetches each candidate's daily OHLCV
history, adds derived columns (Daily_Return, High_Low_Spread, SMA_7,
SMA_30), writes one CSV per successful candidate plus a directory CSV and
a JSON manifest. We embed the tabular data as lists of named columns whose
cells are `Option ℚ` (`none` models a NaN cell), and the candidate loop as
a fold over the candidate list with an explicit state record.
-/

namespace CryptoTop100

/-- A cell of a table: `none` models a NaN / missing value. -/
abbrev Cell := Option ℚ

/-- A column is the list of its cells, one per row. -/
abbrev Col := List Cell

/-- Elementwise subtraction with NaN propagation (pandas semantics). -/
def csub : Cell → Cell → Cell
  | some a, some b => some (a - b)
  | _, _ => none

/-- Division with NaN propagation; a zero denominator yields a
non-finite value in pandas, modelled here as `none`. -/
def cdiv : Cell → Cell → Cell
  | some a, some b => if b = 0 then none else some (a / b)
  | _, _ => none

/-- Multiplication by a scalar, NaN-propagating (`series * 100`). -/
def cmul (c : Cell) (k : ℚ) : Cell := c.map (fun x => x * k)

/-- Addition with NaN propagation, used to sum rolling windows. -/
def cadd : Cell → Cell → Cell
  | some a, some b => some (a + b)
  | _, _ => none

/-- Sum of a list of cells; any NaN poisons the sum (pandas rolling
mean with the default min_periods yields NaN on incomplete data). -/
def csum (cs : List Cell) : Cell := cs.foldr cadd (some 0)

/-- Divide a cell by a natural number (the rolling window width). -/
def cdivNat (c : Cell) (w : Nat) : Cell := c.map (fun x => x / (w : ℚ))

/-- A data frame: ordered, named columns (the pandas DataFrame as the
script uses it; the Date index appears as an ordinary column here, which
is what `reset_index` produces before any column is consumed). -/
structure DF where
  cols : List (String × Col)
deriving DecidableEq

/-- Look up a column by name (`df[name]`); `none` models the KeyError. -/
def DF.getCol? (df : DF) (name : String) : Option Col :=
  (df.cols.find? (fun p => p.1 == name)).map (fun p => p.2)

/-- Column assignment `df[name] = col`: replace in place when the name
exists, else append the new column at the end (pandas semantics). -/
def DF.setCol (df : DF) (name : String) (c : Col) : DF :=
  if df.cols.any (fun p => p.1 == name) then
    ⟨df.cols.map (fun p => if p.1 == name then (name, c) else p)⟩
  else
    ⟨df.cols ++ [(name, c)]⟩

/-- Column selection `df[names]`: all names must exist (else KeyError,
modelled as `none`); the result has exactly `names`, in that order. -/
def DF.select (df : DF) (names : List String) : Option DF :=
  if names.all (fun n => (df.getCol? n).isSome) then
    some ⟨names.map (fun n => (n, ((df.getCol? n).getD [])))⟩
  else
    none

/-- The ordered column names of a frame. -/
def DF.colNames (df : DF) : List String := df.cols.map (fun p => p.1)

/-- Number of rows (length of the first column; frames built by the
pipeline are rectangular). -/
def DF.nrows (df : DF) : Nat := ((df.cols.head?).map (fun p => p.2.length)).getD 0

/-- The pandas `df.empty` test: true when either axis has length zero. -/
def DF.empty (df : DF) : Bool := df.cols.isEmpty || df.nrows == 0

/-- The `series.pct_change()` of pandas: entry 0 is NaN, entry `i ≥ 1` is
`(x[i] - x[i-1]) / x[i-1]`. -/
def pctChange (xs : Col) : Col :=
  (List.range xs.length).map (fun i =>
    if i = 0 then none
    else cdiv (csub (xs.getD i none) (xs.getD (i - 1) none)) (xs.getD (i - 1) none))

/-- Scale every cell of a column (`series * k`). -/
def colMul (xs : Col) (k : ℚ) : Col := xs.map (fun c => cmul c k)

/-- Elementwise difference of two columns (`df[a] - df[b]`). -/
def colSub (a b : Col) : Col := List.zipWith csub a b

/-- The `series.rolling(window=w).mean()` of pandas: NaN for the first
`w - 1` rows, then the mean of the trailing window of width `w`. -/
def rollingMean (w : Nat) (xs : Col) : Col :=
  (List.range xs.length).map (fun i =>
    if w ≤ i + 1 then cdivNat (csum ((xs.drop (i + 1 - w)).take w)) w else none)

/-- The fixed output column list of src/main.py (lines 73-74). -/
def columns : List String :=
  ["Date", "Open", "High", "Low", "Close", "Volume",
   "Daily_Return", "High_Low_Spread", "SMA_7", "SMA_30"]

/-- COLUMN_DESCRIPTIONS of src/main.py (lines 15-26). -/
def COLUMN_DESCRIPTIONS : List (String × String) :=
  [("Date", "The trading date (YYYY-MM-DD format)"),
   ("Open", "Price at the start of the day (00:00 UTC) in USD"),
   ("High", "Highest price reached during the day in USD"),
   ("Low", "Lowest price reached during the day in USD"),
   ("Close", "Price at the end of the day (23:59 UTC) in USD"),
   ("Volume", "Total trading volume in USD"),
   ("Daily_Return", "Percentage change from the previous day's close"),
   ("High_Low_Spread", "Intraday volatility calculated as (High - Low)"),
   ("SMA_7", "Simple Moving Average over 7 days (7-day trend)"),
   ("SMA_30", "Simple Moving Average over 30 days (30-day trend)")]

/-- Dictionary lookup in COLUMN_DESCRIPTIONS. -/
def lookupDescription (col : String) : Option String :=
  (COLUMN_DESCRIPTIONS.find? (fun p => p.1 == col)).map (fun p => p.2)

/-- The feature-computation block of src/main.py (lines 64-75): add the
four derived columns, then select and reorder to the fixed column list.
`none` models an exception escaping this block (a missing source column
raises KeyError). The Close column is read once; none of the
assignments overwrite Close, High or Low. -/
def enrichDF (df : DF) : Option DF := do
  let close ← df.getCol? "Close"
  let high ← df.getCol? "High"
  let low ← df.getCol? "Low"
  let df1 := df.setCol "Daily_Return" (colMul (pctChange close) 100)
  let df2 := df1.setCol "High_Low_Spread" (colSub high low)
  let df3 := df2.setCol "SMA_7" (rollingMean 7 close)
  let df4 := df3.setCol "SMA_30" (rollingMean 30 close)
  df4.select columns

/-- An asset candidate from the ranking provider: `coin_name = coin['id']`
and `coin_symbol = coin['symbol'].upper()` of src/main.py lines 46-47
(the symbol field holds the already upper-cased binding the script works
with). -/
structure Candidate where
  id : String
  symbol : String
deriving DecidableEq

/-- One row of crypto_directory.csv (src/main.py lines 86-90). -/
structure DirEntry where
  index : Nat
  cryptoName : String
  fileName : String
deriving DecidableEq

/-- One entry of a resource's column schema: name plus description
(src/main.py lines 98-101). -/
structure FieldDescriptor where
  name : String
  description : String
deriving DecidableEq

/-- One resource entry of the manifest (src/main.py lines 105-109 and
135-139). -/
structure FileMeta where
  path : String
  description : String
  columns : List FieldDescriptor
deriving DecidableEq

/-- The filename of src/main.py line 78: the coin id verbatim, an
underscore, the (upper-cased) symbol, the extension. -/
def mkFilename (c : Candidate) : String :=
  c.id ++ "_" ++ c.symbol ++ ".csv"

/-- columns_metadata of src/main.py lines 96-102: one descriptor per
entry of the fixed column list, with the dictionary description or the
f-string fallback. -/
def columnsMetadata : List FieldDescriptor :=
  columns.map (fun col => ⟨col, (lookupDescription col).getD (col ++ " data")⟩)

/-- file_meta of src/main.py lines 105-109 for one successful asset. -/
def mkFileMeta (c : Candidate) : FileMeta :=
  { path := "crypto_top100/" ++ mkFilename c
    description := "Historical data for " ++ c.id ++ " cryptocurrency"
    columns := columnsMetadata }

/-- What one call to the historical-series provider can do: return a
frame, raise an ordinary Exception (caught by the per-candidate
handler of src/main.py line 114), or deliver an external stop signal
(KeyboardInterrupt/SystemExit, which `except Exception` does not catch). -/
inductive FetchOutcome where
  | ok (df : DF)
  | exn
  | interrupt
deriving DecidableEq

/-- The mutable state of the candidate loop (src/main.py lines 33-36),
plus `fetch_calls`, the instrumentation the spec itself proposes (a
call-count on a mocked fetch function) recording each candidate for
which an acquisition was attempted. -/
structure RunState where
  successful_count : Nat
  failed_downloads : Nat
  crypto_directory_data : List DirEntry
  files_metadata : List FileMeta
  saved : List (String × DF)
  fetch_calls : List Candidate
deriving DecidableEq

/-- The initial state (src/main.py lines 33-36). -/
def initState : RunState :=
  { successful_count := 0
    failed_downloads := 0
    crypto_directory_data := []
    files_metadata := []
    saved := []
    fetch_calls := [] }

/-- The body of the candidate loop, src/main.py lines 45-116: fetch the
history; on an empty frame record a failure and continue; enrich (a
raised exception is caught by the handler at line 114 and recorded as a
failure); otherwise save the CSV, bump the success counter and append
the directory entry and the resource metadata. A stop signal propagates
(`except Exception` does not catch it), modelled as `.error ()`. -/
def stepCoin (fetch : Candidate → FetchOutcome) (s : RunState) (c : Candidate) :
    Except Unit RunState :=
  match fetch c with
  | .interrupt => .error ()
  | .exn => .ok { s with failed_downloads := s.failed_downloads + 1
                         fetch_calls := s.fetch_calls ++ [c] }
  | .ok df =>
    let s1 := { s with fetch_calls := s.fetch_calls ++ [c] }
    if df.empty then
      .ok { s1 with failed_downloads := s1.failed_downloads + 1 }
    else
      match enrichDF df with
      | none => .ok { s1 with failed_downloads := s1.failed_downloads + 1 }
      | some edf =>
        .ok { successful_count := s1.successful_count + 1
              failed_downloads := s1.failed_downloads
              crypto_directory_data := s1.crypto_directory_data ++
                [⟨s1.successful_count + 1, c.id, mkFilename c⟩]
              files_metadata := s1.files_metadata ++ [mkFileMeta c]
              saved := s1.saved ++ [(mkFilename c, edf)]
              fetch_calls := s1.fetch_calls }

/-- The candidate loop of src/main.py lines 40-116: iterate in rank
order, break as soon as `successful_count >= target` (line 41-43,
checked before any acquisition), otherwise run the body; a stop signal
aborts the whole loop. -/
def runLoop (fetch : Candidate → FetchOutcome) (target : Nat) :
    List Candidate → RunState → Except Unit RunState
  | [], s => .ok s
  | c :: cs, s =>
    if target ≤ s.successful_count then .ok s
    else
      match stepCoin fetch s c with
      | .ok s1 => runLoop fetch target cs s1
      | .error e => .error e

/-- dir_columns of src/main.py lines 129-133. -/
def dirColumns : List FieldDescriptor :=
  [⟨"Index", "Ranking index from 1 to 100 based on market capitalization"⟩,
   ⟨"Crypto Name", "Official cryptocurrency name (e.g., bitcoin, ethereum)"⟩,
   ⟨"File Name", "Corresponding CSV filename in crypto_top100 folder"⟩]

/-- dir_file_meta of src/main.py lines 135-139. -/
def dirFileMeta : FileMeta :=
  { path := "crypto_directory.csv"
    description := "Directory listing of all 100 cryptocurrencies included in this dataset, ranked by market capitalization. Use this file to quickly find the filename for any cryptocurrency."
    columns := dirColumns }

/-- What the script serializes after the loop: crypto_directory.csv
(lines 123-125), the manifest resources with the directory resource
inserted first (line 140, lines 261-288), and the per-asset CSVs
written during the loop. -/
structure FinalOutput where
  directoryRows : List DirEntry
  resources : List FileMeta
  savedFiles : List (String × DF)
deriving DecidableEq

/-- The post-loop serialization block, src/main.py lines 118-288. -/
def finalize (s : RunState) : FinalOutput :=
  { directoryRows := s.crypto_directory_data
    resources := dirFileMeta :: s.files_metadata
    savedFiles := s.saved }

/-- The whole script on a given candidate list: the loop followed by the
serialization block; when a stop signal aborts the loop the script dies
before line 118, so nothing after the loop is written. -/
def runScript (fetch : Candidate → FetchOutcome) (target : Nat)
    (cands : List Candidate) : Option FinalOutput :=
  match runLoop fetch target cands initState with
  | .ok s => some (finalize s)
  | .error _ => none

/-- TARGET_COUNT of src/main.py line 37. -/
def TARGET_COUNT : Nat := 100

/-- A candidate counts as viable when its fetch returns a frame that is
non-empty and whose enrichment does not raise: exactly the condition
under which the loop body reaches the success branch. -/
def viableB (fetch : Candidate → FetchOutcome) (c : Candidate) : Bool :=
  match fetch c with
  | .ok df => !df.empty && (enrichDF df).isSome
  | _ => false

/-- The successes of a run: the first `t` viable candidates in rank
order. -/
def winners (fetch : Candidate → FetchOutcome) (t : Nat)
    (cands : List Candidate) : List Candidate :=
  (cands.filter (viableB fetch)).take t

/-- The enriched frame a viable candidate contributes. -/
def enrichedOf (fetch : Candidate → FetchOutcome) (c : Candidate) : DF :=
  match fetch c with
  | .ok df => (enrichDF df).getD ⟨[]⟩
  | _ => ⟨[]⟩

/-- How many candidates the loop attempts an acquisition for before it
exits: it walks the list, spending one remaining-target unit per viable
candidate, and stops as soon as the remaining target hits zero. -/
def fetchCount (fetch : Candidate → FetchOutcome) : Nat → List Candidate → Nat
  | _, [] => 0
  | 0, _ :: _ => 0
  | t + 1, c :: cs =>
    1 + fetchCount fetch (if viableB fetch c then t else t + 1) cs

/-- The directory entries a run appends for a given success list when
the success counter starts at `k`: the j-th entry (0-based) gets index
`k + j + 1`. -/
def dirEntriesFrom (k : Nat) : List Candidate → List DirEntry
  | [] => []
  | c :: cs => ⟨k + 1, c.id, mkFilename c⟩ :: dirEntriesFrom (k + 1) cs

/-- The loop body under the assumption that no stop signal arrives:
`stepCoin` never returns `.error` then, and this function names its
`.ok` payload. -/
def stepCoinNI (fetch : Candidate → FetchOutcome) (s : RunState)
    (c : Candidate) : RunState :=
  match stepCoin fetch s c with
  | .ok s1 => s1
  | .error _ => s

/-- The candidate loop under the assumption that no stop signal
arrives. -/
def runLoopNI (fetch : Candidate → FetchOutcome) (target : Nat) :
    List Candidate → RunState → RunState
  | [], s => s
  | c :: cs, s =>
    if target ≤ s.successful_count then s
    else runLoopNI fetch target cs (stepCoinNI fetch s c)

/-- Modelled from the spec: the Schema Deriver of spec section 4.3 (the
source has no separate function; its loop always iterates the full
column list). `deriveSchema` keeps the canonical descriptors whose name
is among the present columns, preserving canonical order. -/
def deriveSchema (canonical : List FieldDescriptor)
    (presentColumns : List String) : List FieldDescriptor :=
  canonical.filter (fun f => presentColumns.contains f.name)

/-- The canonical field list of the spec (sections 3 and 4.3): the
full fixed catalog of output columns with their descriptions. -/
def canonicalFields : List FieldDescriptor :=
  [⟨"Date", "The trading date (YYYY-MM-DD format)"⟩,
   ⟨"Open", "Price at the start of the day (00:00 UTC) in USD"⟩,
   ⟨"High", "Highest price reached during the day in USD"⟩,
   ⟨"Low", "Lowest price reached during the day in USD"⟩,
   ⟨"Close", "Price at the end of the day (23:59 UTC) in USD"⟩,
   ⟨"Volume", "Total trading volume in USD"⟩,
   ⟨"Daily_Return", "Percentage change from the previous day's close"⟩,
   ⟨"High_Low_Spread", "Intraday volatility calculated as (High - Low)"⟩,
   ⟨"SMA_7", "Simple Moving Average over 7 days (7-day trend)"⟩,
   ⟨"SMA_30", "Simple Moving Average over 30 days (30-day trend)"⟩]

/-- Modelled from the spec: the `sanitize` of spec section 4.4, which
replaces every non-alphanumeric character of a name with a fixed
placeholder character. The source (src/main.py line 78) has no such
function. -/
def sanitize (placeholder : Char) (s : String) : String :=
  ⟨s.data.map (fun ch => if ch.isAlphanum then ch else placeholder)⟩

/-- A raw one-row frame with the provider's standard columns, viable. -/
def dfGood : DF :=
  ⟨[("Date", [some 1]), ("Open", [some 10]), ("High", [some 12]),
    ("Low", [some 9]), ("Close", [some 11]), ("Volume", [some 1000])]⟩

/-- A raw three-row frame: non-empty but far below ten rows. -/
def df3 : DF :=
  ⟨[("Date", [some 1, some 2, some 3]),
    ("Open", [some 10, some 11, some 12]),
    ("High", [some 12, some 13, some 14]),
    ("Low", [some 9, some 10, some 11]),
    ("Close", [some 11, some 12, some 13]),
    ("Volume", [some 1000, some 1100, some 1200])]⟩

/-- A raw five-row frame, fewer than seven rows. -/
def rawDF5 : DF :=
  ⟨[("Date", [some 1, some 2, some 3, some 4, some 5]),
    ("Open", [some 10, some 11, some 12, some 13, some 14]),
    ("High", [some 12, some 13, some 14, some 15, some 16]),
    ("Low", [some 9, some 10, some 11, some 12, some 13]),
    ("Close", [some 11, some 12, some 13, some 14, some 15]),
    ("Volume", [some 1000, some 1100, some 1200, some 1300, some 1400])]⟩

/-- Close prices 1, 2, ..., 31 for a thirty-one row frame. -/
def closes31 : List ℚ := (List.range 31).map (fun n => ((n : ℚ) + 1))

/-- High prices for the thirty-one row frame. -/
def highs31 : List ℚ := (List.range 31).map (fun n => ((n : ℚ) + 2))

/-- Low prices for the thirty-one row frame. -/
def lows31 : List ℚ := (List.range 31).map (fun n => ((n : ℚ) + 1) / 2)

/-- A raw thirty-one row frame with the provider's standard columns. -/
def df31 : DF :=
  ⟨[("Date", (List.range 31).map (fun n => some ((n : ℚ)))),
    ("Open", (List.range 31).map (fun n => some ((n : ℚ) + 1))),
    ("High", highs31.map some),
    ("Low", lows31.map some),
    ("Close", closes31.map some),
    ("Volume", (List.range 31).map (fun n => some ((n : ℚ) + 500)))]⟩

/-- Its enrichment (total by construction; the default is dead). -/
def edf31 : DF := (enrichDF df31).getD ⟨[]⟩

/-- An empty frame, as the provider returns for an unknown ticker. -/
def dfEmpty : DF :=
  ⟨[("Date", []), ("Open", []), ("High", []), ("Low", []),
    ("Close", []), ("Volume", [])]⟩

/-- Concrete candidates for the spec's worked example. -/
def candA : Candidate := ⟨"bitcoin", "BTC"⟩

/-- Second candidate of the worked example (its data is empty). -/
def candB : Candidate := ⟨"ethereum", "ETH"⟩

/-- Third candidate of the worked example. -/
def candC : Candidate := ⟨"tether", "USDT"⟩

/-- A candidate whose fetched history is short. -/
def candD : Candidate := ⟨"cardano", "ADA"⟩

/-- The mocked fetch of the worked example: A and C viable, B empty. -/
def demoFetch : Candidate → FetchOutcome := fun c =>
  if c = candB then .ok dfEmpty else .ok dfGood

/-- A mocked fetch returning a three-row history for every candidate. -/
def fetch3 : Candidate → FetchOutcome := fun _ => .ok df3

/-- A mocked fetch: candidate A gets data, every later call is hit by a
stop signal. -/
def fetchI : Candidate → FetchOutcome := fun c =>
  if c = candA then .ok dfGood else .interrupt

/-- A mocked fetch that always raises an ordinary exception. -/
def fetchE : Candidate → FetchOutcome := fun _ => .exn

/-- A mocked fetch returning the thirty-one row frame. -/
def fetch31 : Candidate → FetchOutcome := fun _ => .ok df31

/-- A mocked fetch returning the empty frame for every candidate. -/
def fetchEmptyDF : Candidate → FetchOutcome := fun _ => .ok dfEmpty

/-- The Close column of the five-row frame. -/
def close5 : Col := [some 11, some 12, some 13, some 14, some 15]

/-- The High column of the five-row frame. -/
def high5 : Col := [some 12, some 13, some 14, some 15, some 16]

/-- The Low column of the five-row frame. -/
def low5 : Col := [some 9, some 10, some 11, some 12, some 13]

/-- The enrichment of the five-row frame (total by construction). -/
def edf5 : DF := (enrichDF rawDF5).getD ⟨[]⟩

/-! ### Frame lemmas -/

theorem find?_replace_self (n : String) (c : Col) :
    ∀ l : List (String × Col), l.any (fun p => p.1 == n) = true →
      (l.map (fun p => if p.1 == n then (n, c) else p)).find?
        (fun p => p.1 == n) = some (n, c) := by
  intro l
  induction l with
  | nil => intro h; simp at h
  | cons p ps ih =>
    intro h
    by_cases hp : (p.1 == n) = true
    · rw [List.map_cons, if_pos hp]
      simp [List.find?]
    · have hfp : (p.1 == n) = false := Bool.eq_false_iff.mpr hp
      rw [List.map_cons, if_neg hp]
      simp only [List.find?, hfp]
      apply ih
      simpa [hfp] using h

theorem find?_append_self (n : String) (c : Col) :
    ∀ l : List (String × Col), l.any (fun p => p.1 == n) = false →
      (l ++ [(n, c)]).find? (fun p => p.1 == n) = some (n, c) := by
  intro l
  induction l with
  | nil =>
    intro _
    simp [List.find?]
  | cons p ps ih =>
    intro h
    simp only [List.any_cons, Bool.or_eq_false_iff] at h
    simp only [List.cons_append, List.find?, h.1]
    exact ih h.2

theorem find?_replace_other (n m : String) (c : Col) (hmn : m ≠ n) :
    ∀ l : List (String × Col),
      (l.map (fun p => if p.1 == n then (n, c) else p)).find?
        (fun p => p.1 == m) = l.find? (fun p => p.1 == m) := by
  have hnm : ((n : String) == m) = false := beq_eq_false_iff_ne.mpr (Ne.symm hmn)
  intro l
  induction l with
  | nil => simp
  | cons p ps ih =>
    by_cases hp : (p.1 == n) = true
    · have hpm : (p.1 == m) = false := by
        rw [show p.1 = n by simpa using hp]; exact hnm
      rw [List.map_cons, if_pos hp]
      simp only [List.find?, hnm, hpm]
      exact ih
    · rw [List.map_cons, if_neg hp]
      cases hq : (p.1 == m) with
      | true => simp only [List.find?, hq]
      | false =>
        simp only [List.find?, hq]
        exact ih

theorem find?_append_other (n m : String) (c : Col) (hmn : m ≠ n)
    (l : List (String × Col)) :
    (l ++ [(n, c)]).find? (fun p => p.1 == m) = l.find? (fun p => p.1 == m) := by
  have hnm : ((n : String) == m) = false := beq_eq_false_iff_ne.mpr (Ne.symm hmn)
  induction l with
  | nil => simp [List.find?, hnm]
  | cons p ps ih =>
    rw [List.cons_append]
    cases hq : (p.1 == m) with
    | true => simp only [List.find?, hq]
    | false =>
      simp only [List.find?, hq]
      exact ih

theorem getCol?_setCol_self (df : DF) (n : String) (c : Col) :
    (df.setCol n c).getCol? n = some c := by
  unfold DF.setCol DF.getCol?
  by_cases h : df.cols.any (fun p => p.1 == n)
  · simp only [if_pos h]
    rw [find?_replace_self n c df.cols h]
    rfl
  · simp only [if_neg h]
    rw [find?_append_self n c df.cols (Bool.eq_false_iff.mpr h)]
    rfl

theorem getCol?_setCol_other (df : DF) (n m : String) (c : Col) (hmn : m ≠ n) :
    (df.setCol n c).getCol? m = df.getCol? m := by
  unfold DF.setCol DF.getCol?
  by_cases h : df.cols.any (fun p => p.1 == n)
  · simp only [if_pos h]
    rw [find?_replace_other n m c hmn df.cols]
  · simp only [if_neg h]
    rw [find?_append_other n m c hmn df.cols]

theorem beq_false_of_ne {n m : String} (h : n ≠ m) : (n == m) = false :=
  beq_eq_false_iff_ne.mpr h

theorem select_eq (df : DF) (names : List String) (e : DF)
    (h : df.select names = some e) :
    (names.all (fun n => (df.getCol? n).isSome) = true) ∧
    e = ⟨names.map (fun n => (n, ((df.getCol? n).getD [])))⟩ := by
  unfold DF.select at h
  by_cases hc : names.all (fun n => (df.getCol? n).isSome)
  · refine ⟨hc, ?_⟩
    rw [if_pos hc] at h
    exact (Option.some.injEq _ _ ▸ h).symm
  · rw [if_neg hc] at h; exact absurd h (by simp)

theorem select_colNames (df : DF) (names : List String) (e : DF)
    (h : df.select names = some e) : e.colNames = names := by
  obtain ⟨-, he⟩ := select_eq df names e h
  subst he
  simp [DF.colNames, List.map_map, Function.comp_def]

theorem find?_map_key (g : String → String × Col) (hg : ∀ n, (g n).1 = n)
    (m : String) :
    ∀ names : List String, m ∈ names →
      (names.map g).find? (fun p => p.1 == m) = some (g m) := by
  intro names
  induction names with
  | nil => intro h; simp at h
  | cons n ns ih =>
    intro h
    by_cases hn : n = m
    · subst hn
      simp [List.find?, hg n]
    · have hm : m ∈ ns := by
        rcases List.mem_cons.mp h with h' | h'
        · exact absurd h'.symm hn
        · exact h'
      have hne : ((g n).1 == m) = false := by
        rw [hg n]; simp [BEq.beq]; exact hn
      simp only [List.map_cons, List.find?, hne]
      exact ih hm

theorem select_getCol? (df : DF) (names : List String) (e : DF) (m : String)
    (h : df.select names = some e) (hm : m ∈ names) :
    e.getCol? m = df.getCol? m := by
  obtain ⟨hall, he⟩ := select_eq df names e h
  subst he
  have hs : (df.getCol? m).isSome := by
    have := List.all_eq_true.mp hall m hm
    simpa using this
  obtain ⟨v, hv⟩ := Option.isSome_iff_exists.mp hs
  show (List.find? (fun p => p.1 == m)
      (names.map (fun n => (n, ((df.getCol? n).getD []))))).map (fun p => p.2)
    = df.getCol? m
  rw [find?_map_key (fun n => (n, ((df.getCol? n).getD []))) (fun _ => rfl) m names hm]
  simp [hv]


/-! ### Column lemmas -/

theorem getD_of_lt {α : Type} (l : List α) (i : Nat) (d : α) (h : i < l.length) :
    l.getD i d = l.get ⟨i, h⟩ := by
  rw [List.getD_eq_getElem?_getD, List.getElem?_eq_getElem h]
  rfl

theorem rangeMap_getD {α : Type} (n : Nat) (f : Nat → α) (i : Nat) (d : α)
    (h : i < n) :
    ((List.range n).map f).getD i d = f i := by
  rw [getD_of_lt _ i d (by simpa using h)]
  simp

theorem map_some_getD (xs : List ℚ) (i : Nat) (h : i < xs.length) :
    (xs.map some).getD i none = some (xs.getD i 0) := by
  rw [getD_of_lt _ i none (by simpa using h), getD_of_lt xs i 0 h]
  simp

theorem csum_map_some (l : List ℚ) : csum (l.map some) = some l.sum := by
  induction l with
  | nil => rfl
  | cons x t ih =>
    simp only [List.map_cons, csum, List.foldr_cons, List.sum_cons]
    rw [show List.foldr cadd (some 0) (t.map some) = csum (t.map some) from rfl, ih]
    rfl

theorem sum_take (xs : List ℚ) :
    ∀ n, n ≤ xs.length → (xs.take n).sum = ∑ j in Finset.range n, xs.getD j 0 := by
  induction xs with
  | nil =>
    intro n hn
    have hz : n = 0 := by simpa using hn
    subst hz
    simp
  | cons x t ih =>
    intro n hn
    cases n with
    | zero => simp
    | succ m =>
      rw [List.take_succ_cons, List.sum_cons, Finset.sum_range_succ']
      simp only [List.getD_cons_succ, List.getD_cons_zero]
      rw [ih m (by simpa using hn)]
      ring

theorem getD_drop (xs : List ℚ) :
    ∀ a j, (xs.drop a).getD j 0 = xs.getD (a + j) 0 := by
  induction xs with
  | nil => intro a j; simp
  | cons x t ih =>
    intro a j
    cases a with
    | zero => simp
    | succ b =>
      rw [List.drop_succ_cons, ih b j, show b + 1 + j = (b + j) + 1 by omega,
        List.getD_cons_succ]

theorem sum_drop_take (xs : List ℚ) (a n : Nat) (h : a + n ≤ xs.length) :
    ((xs.drop a).take n).sum = ∑ j in Finset.range n, xs.getD (a + j) 0 := by
  rw [sum_take _ n (by simp [List.length_drop]; omega)]
  exact Finset.sum_congr rfl (fun j _ => getD_drop xs a j)

theorem sum_Icc_window (xs : List ℚ) (a i : Nat) (ha : a ≤ i)
    (h : i < xs.length) :
    (∑ j in Finset.Icc a i, xs.getD j 0)
      = ((xs.drop a).take (i + 1 - a)).sum := by
  rw [sum_drop_take xs a (i + 1 - a) (by omega), ← Nat.Ico_succ_right,
    Finset.sum_Ico_eq_sum_range]

theorem rollingMean_map_some_getD (w : Nat) (xs : List ℚ) (i : Nat)
    (hw : 0 < w) (h1 : w ≤ i + 1) (h2 : i < xs.length) :
    (rollingMean w (xs.map some)).getD i none
      = some ((∑ j in Finset.Icc (i + 1 - w) i, xs.getD j 0) / (w : ℚ)) := by
  unfold rollingMean
  rw [List.length_map, rangeMap_getD _ _ i none h2, if_pos h1]
  rw [← List.map_drop, ← List.map_take, csum_map_some]
  rw [sum_Icc_window xs (i + 1 - w) i (by omega) h2,
    show i + 1 - (i + 1 - w) = w by omega]
  rfl

theorem rollingMean_all_none (w : Nat) (xs : Col) (hw : xs.length < w) :
    ∀ cell ∈ rollingMean w xs, cell = none := by
  intro cell hcell
  unfold rollingMean at hcell
  obtain ⟨i, hi, hf⟩ := List.mem_map.mp hcell
  have hilt : i < xs.length := List.mem_range.mp hi
  rw [← hf, if_neg (by omega)]

theorem pctChange_map_some_getD (xs : List ℚ) (i : Nat) (h1 : 1 ≤ i)
    (h2 : i < xs.length) (h0 : xs.getD (i - 1) 0 ≠ 0) :
    (pctChange (xs.map some)).getD i none
      = some ((xs.getD i 0 - xs.getD (i - 1) 0) / xs.getD (i - 1) 0) := by
  unfold pctChange
  rw [List.length_map, rangeMap_getD _ _ i none h2, if_neg (by omega)]
  rw [map_some_getD xs i h2, map_some_getD xs (i - 1) (by omega)]
  simp only [csub, cdiv]
  rw [if_neg h0]

theorem pctChange_getD_zero (xs : Col) : (pctChange xs).getD 0 none = none := by
  unfold pctChange
  rcases Nat.eq_zero_or_pos xs.length with h | h
  · rw [h]; rfl
  · rw [rangeMap_getD _ _ 0 none h]
    rfl

theorem colMul_getD (xs : Col) (k : ℚ) (i : Nat) :
    (colMul xs k).getD i none = cmul (xs.getD i none) k := by
  rcases Nat.lt_or_ge i xs.length with h | h
  · unfold colMul
    rw [getD_of_lt _ i none (by simpa using h), getD_of_lt xs i none h]
    simp
  · rw [List.getD_eq_getElem?_getD, List.getD_eq_getElem?_getD,
      List.getElem?_eq_none (by simpa [colMul] using h),
      List.getElem?_eq_none (by simpa using h)]
    rfl

theorem colSub_getD (a b : Col) (i : Nat) (ha : i < a.length)
    (hb : i < b.length) :
    (colSub a b).getD i none = csub (a.getD i none) (b.getD i none) := by
  unfold colSub
  rw [getD_of_lt _ i none (by rw [List.length_zipWith]; omega),
    getD_of_lt a i none ha, getD_of_lt b i none hb]
  simp [List.getElem_zipWith]

/-! ### Enrichment lemmas -/

theorem enrichDF_eq (df edf : DF) (close high low : Col)
    (hc : df.getCol? "Close" = some close)
    (hh : df.getCol? "High" = some high)
    (hl : df.getCol? "Low" = some low)
    (he : enrichDF df = some edf) :
    ((((df.setCol "Daily_Return" (colMul (pctChange close) 100)).setCol
        "High_Low_Spread" (colSub high low)).setCol
        "SMA_7" (rollingMean 7 close)).setCol
        "SMA_30" (rollingMean 30 close)).select columns = some edf := by
  unfold enrichDF at he
  rw [hc, hh, hl] at he
  simpa using he

theorem enrichDF_colNames (df edf : DF) (close high low : Col)
    (hc : df.getCol? "Close" = some close)
    (hh : df.getCol? "High" = some high)
    (hl : df.getCol? "Low" = some low)
    (he : enrichDF df = some edf) :
    edf.colNames = columns :=
  select_colNames _ _ _ (enrichDF_eq df edf close high low hc hh hl he)

theorem enrichDF_dailyReturn (df edf : DF) (close high low : Col)
    (hc : df.getCol? "Close" = some close)
    (hh : df.getCol? "High" = some high)
    (hl : df.getCol? "Low" = some low)
    (he : enrichDF df = some edf) :
    edf.getCol? "Daily_Return" = some (colMul (pctChange close) 100) := by
  rw [select_getCol? _ _ _ _ (enrichDF_eq df edf close high low hc hh hl he)
    (by simp [columns])]
  rw [getCol?_setCol_other _ _ _ _ (by decide),
    getCol?_setCol_other _ _ _ _ (by decide),
    getCol?_setCol_other _ _ _ _ (by decide),
    getCol?_setCol_self]

theorem enrichDF_spread (df edf : DF) (close high low : Col)
    (hc : df.getCol? "Close" = some close)
    (hh : df.getCol? "High" = some high)
    (hl : df.getCol? "Low" = some low)
    (he : enrichDF df = some edf) :
    edf.getCol? "High_Low_Spread" = some (colSub high low) := by
  rw [select_getCol? _ _ _ _ (enrichDF_eq df edf close high low hc hh hl he)
    (by simp [columns])]
  rw [getCol?_setCol_other _ _ _ _ (by decide),
    getCol?_setCol_other _ _ _ _ (by decide),
    getCol?_setCol_self]

theorem enrichDF_sma7 (df edf : DF) (close high low : Col)
    (hc : df.getCol? "Close" = some close)
    (hh : df.getCol? "High" = some high)
    (hl : df.getCol? "Low" = some low)
    (he : enrichDF df = some edf) :
    edf.getCol? "SMA_7" = some (rollingMean 7 close) := by
  rw [select_getCol? _ _ _ _ (enrichDF_eq df edf close high low hc hh hl he)
    (by simp [columns])]
  rw [getCol?_setCol_other _ _ _ _ (by decide), getCol?_setCol_self]

theorem enrichDF_sma30 (df edf : DF) (close high low : Col)
    (hc : df.getCol? "Close" = some close)
    (hh : df.getCol? "High" = some high)
    (hl : df.getCol? "Low" = some low)
    (he : enrichDF df = some edf) :
    edf.getCol? "SMA_30" = some (rollingMean 30 close) := by
  rw [select_getCol? _ _ _ _ (enrichDF_eq df edf close high low hc hh hl he)
    (by simp [columns])]
  rw [getCol?_setCol_self]

/-! ### Selector lemmas -/

theorem stepCoin_eq_NI (fetch : Candidate → FetchOutcome) (s : RunState)
    (c : Candidate) (h : fetch c ≠ FetchOutcome.interrupt) :
    stepCoin fetch s c = .ok (stepCoinNI fetch s c) := by
  unfold stepCoinNI
  cases hf : fetch c with
  | interrupt => exact absurd hf h
  | exn => simp [stepCoin, hf]
  | ok df =>
    by_cases hemp : df.empty = true
    · simp [stepCoin, hf, hemp]
    · cases hedf : enrichDF df with
      | none => simp [stepCoin, hf, hemp, hedf]
      | some edf => simp [stepCoin, hf, hemp, hedf]

theorem stepCoinNI_viable (fetch : Candidate → FetchOutcome) (s : RunState)
    (c : Candidate) (hv : viableB fetch c = true) :
    stepCoinNI fetch s c =
      { successful_count := s.successful_count + 1
        failed_downloads := s.failed_downloads
        crypto_directory_data := s.crypto_directory_data ++
          [⟨s.successful_count + 1, c.id, mkFilename c⟩]
        files_metadata := s.files_metadata ++ [mkFileMeta c]
        saved := s.saved ++ [(mkFilename c, enrichedOf fetch c)]
        fetch_calls := s.fetch_calls ++ [c] } := by
  unfold viableB at hv
  cases hf : fetch c with
  | interrupt => rw [hf] at hv; simp at hv
  | exn => rw [hf] at hv; simp at hv
  | ok df =>
    rw [hf] at hv
    simp only [Bool.and_eq_true, Bool.not_eq_true'] at hv
    obtain ⟨hemp, hsome⟩ := hv
    obtain ⟨edf, hedf⟩ := Option.isSome_iff_exists.mp hsome
    unfold stepCoinNI stepCoin
    rw [hf]
    simp [hemp, hedf, enrichedOf, hf]

theorem stepCoinNI_not_viable (fetch : Candidate → FetchOutcome) (s : RunState)
    (c : Candidate) (hni : fetch c ≠ FetchOutcome.interrupt)
    (hv : viableB fetch c = false) :
    stepCoinNI fetch s c =
      { s with failed_downloads := s.failed_downloads + 1
               fetch_calls := s.fetch_calls ++ [c] } := by
  cases hf : fetch c with
  | interrupt => exact absurd hf hni
  | exn => unfold stepCoinNI stepCoin; rw [hf]
  | ok df =>
    unfold stepCoinNI stepCoin
    rw [hf]
    by_cases hemp : df.empty = true
    · simp [hemp]
    · cases hedf : enrichDF df with
      | none => simp [hemp, hedf]
      | some edf =>
        exfalso
        unfold viableB at hv
        rw [hf] at hv
        simp [hemp, hedf] at hv

theorem runLoop_eq_NI (fetch : Candidate → FetchOutcome) (target : Nat) :
    ∀ (cands : List Candidate) (s : RunState),
      (∀ c ∈ cands, fetch c ≠ FetchOutcome.interrupt) →
      runLoop fetch target cands s = .ok (runLoopNI fetch target cands s) := by
  intro cands
  induction cands with
  | nil => intro s _; rfl
  | cons c cs ih =>
    intro s hni
    unfold runLoop runLoopNI
    by_cases hb : target ≤ s.successful_count
    · rw [if_pos hb, if_pos hb]
    · rw [if_neg hb, if_neg hb, stepCoin_eq_NI fetch s c (hni c (by simp))]
      exact ih _ (fun x hx => hni x (by simp [hx]))

theorem runLoopNI_closed (fetch : Candidate → FetchOutcome) (target : Nat) :
    ∀ (cands : List Candidate) (s : RunState),
      (∀ c ∈ cands, fetch c ≠ FetchOutcome.interrupt) →
      (runLoopNI fetch target cands s).successful_count
          = s.successful_count
            + (winners fetch (target - s.successful_count) cands).length ∧
      (runLoopNI fetch target cands s).saved
          = s.saved ++ (winners fetch (target - s.successful_count) cands).map
              (fun c => (mkFilename c, enrichedOf fetch c)) ∧
      (runLoopNI fetch target cands s).crypto_directory_data
          = s.crypto_directory_data ++ dirEntriesFrom s.successful_count
              (winners fetch (target - s.successful_count) cands) ∧
      (runLoopNI fetch target cands s).files_metadata
          = s.files_metadata
            ++ (winners fetch (target - s.successful_count) cands).map mkFileMeta ∧
      (runLoopNI fetch target cands s).fetch_calls
          = s.fetch_calls
            ++ cands.take (fetchCount fetch (target - s.successful_count) cands) := by
  intro cands
  induction cands with
  | nil =>
    intro s _
    simp [runLoopNI, winners, fetchCount, dirEntriesFrom]
  | cons c cs ih =>
    intro s hni
    by_cases hb : target ≤ s.successful_count
    · have ht : target - s.successful_count = 0 := by omega
      unfold runLoopNI
      rw [if_pos hb, ht]
      simp [winners, fetchCount, dirEntriesFrom]
    · have hlt : s.successful_count < target := by omega
      obtain ⟨t, ht⟩ : ∃ t, target - s.successful_count = t + 1 :=
        ⟨target - s.successful_count - 1, by omega⟩
      have hnic : fetch c ≠ FetchOutcome.interrupt := hni c (by simp)
      have hnics : ∀ x ∈ cs, fetch x ≠ FetchOutcome.interrupt :=
        fun x hx => hni x (by simp [hx])
      unfold runLoopNI
      rw [if_neg hb]
      by_cases hv : viableB fetch c = true
      · obtain ⟨ihc, ihsv, ihdir, ihfm, ihfc⟩ := ih (stepCoinNI fetch s c) hnics
        have hw : winners fetch (target - s.successful_count) (c :: cs)
            = c :: winners fetch (target - (s.successful_count + 1)) cs := by
          unfold winners
          rw [List.filter_cons_of_pos hv, ht, List.take_succ_cons,
            show target - (s.successful_count + 1) = t by omega]
        have hp : fetchCount fetch (target - s.successful_count) (c :: cs)
            = 1 + fetchCount fetch (target - (s.successful_count + 1)) cs := by
          rw [ht, show target - (s.successful_count + 1) = t by omega]
          show 1 + fetchCount fetch
              (if viableB fetch c = true then t else t + 1) cs
            = 1 + fetchCount fetch t cs
          rw [if_pos hv]
        simp only [stepCoinNI_viable fetch s c hv] at ihc ihsv ihdir ihfm ihfc ⊢
        refine ⟨?_, ?_, ?_, ?_, ?_⟩
        · rw [ihc, hw]
          simp
          omega
        · rw [ihsv, hw]
          simp
        · rw [ihdir, hw]
          simp [dirEntriesFrom]
        · rw [ihfm, hw]
          simp
        · rw [ihfc, hp, Nat.add_comm 1, List.take_succ_cons]
          simp
      · have hv' : viableB fetch c = false := Bool.eq_false_iff.mpr hv
        obtain ⟨ihc, ihsv, ihdir, ihfm, ihfc⟩ := ih (stepCoinNI fetch s c) hnics
        have hw : winners fetch (target - s.successful_count) (c :: cs)
            = winners fetch (target - s.successful_count) cs := by
          unfold winners
          rw [List.filter_cons_of_neg (by simp [hv'])]
        have hp : fetchCount fetch (target - s.successful_count) (c :: cs)
            = 1 + fetchCount fetch (target - s.successful_count) cs := by
          rw [ht]
          show 1 + fetchCount fetch
              (if viableB fetch c = true then t else t + 1) cs
            = 1 + fetchCount fetch (t + 1) cs
          rw [if_neg (by simp [hv'])]
        simp only [stepCoinNI_not_viable fetch s c hnic hv']
          at ihc ihsv ihdir ihfm ihfc ⊢
        refine ⟨?_, ?_, ?_, ?_, ?_⟩
        · rw [ihc, hw]
        · rw [ihsv, hw]
        · rw [ihdir, hw]
        · rw [ihfm, hw]
        · rw [ihfc, hp, Nat.add_comm 1, List.take_succ_cons]
          simp

theorem winners_length (fetch : Candidate → FetchOutcome) (t : Nat)
    (cands : List Candidate) :
    (winners fetch t cands).length = min t (cands.countP (viableB fetch)) := by
  unfold winners
  rw [List.length_take, List.countP_eq_length_filter]

theorem dirEntriesFrom_length (L : List Candidate) :
    ∀ k, (dirEntriesFrom k L).length = L.length := by
  induction L with
  | nil => intro k; rfl
  | cons c cs ih =>
    intro k
    simp [dirEntriesFrom, ih (k + 1)]

theorem dirEntriesFrom_getD (L : List Candidate) :
    ∀ k i, i < L.length →
      (dirEntriesFrom k L).getD i ⟨0, "", ""⟩
        = ⟨k + i + 1, (L.getD i ⟨"", ""⟩).id, mkFilename (L.getD i ⟨"", ""⟩)⟩ := by
  induction L with
  | nil => intro k i h; simp at h
  | cons c cs ih =>
    intro k i h
    cases i with
    | zero => rfl
    | succ j =>
      have hj : j < cs.length := by simpa using h
      simp only [dirEntriesFrom, List.getD_cons_succ]
      rw [ih (k + 1) j hj, show k + 1 + j = k + (j + 1) by omega]

theorem stepCoin_ok_lengths (fetch : Candidate → FetchOutcome) (s : RunState)
    (c : Candidate) (s1 : RunState) (h : stepCoin fetch s c = .ok s1)
    (h1 : s.crypto_directory_data.length = s.saved.length)
    (h2 : s.files_metadata.length = s.saved.length)
    (h3 : s.successful_count = s.saved.length) :
    s1.crypto_directory_data.length = s1.saved.length ∧
    s1.files_metadata.length = s1.saved.length ∧
    s1.successful_count = s1.saved.length := by
  by_cases hni : fetch c = FetchOutcome.interrupt
  · have hx : stepCoin fetch s c = .error () := by simp [stepCoin, hni]
    rw [hx] at h
    exact absurd h (by simp)
  · rw [stepCoin_eq_NI fetch s c hni] at h
    injection h with h
    subst h
    by_cases hv : viableB fetch c = true
    · rw [stepCoinNI_viable fetch s c hv]
      simp [h1, h2, h3]
    · rw [stepCoinNI_not_viable fetch s c hni (Bool.eq_false_iff.mpr hv)]
      simp [h1, h2, h3]

theorem runLoop_ok_lengths (fetch : Candidate → FetchOutcome) (target : Nat) :
    ∀ (cands : List Candidate) (s s1 : RunState),
      runLoop fetch target cands s = .ok s1 →
      s.crypto_directory_data.length = s.saved.length →
      s.files_metadata.length = s.saved.length →
      s.successful_count = s.saved.length →
      s1.crypto_directory_data.length = s1.saved.length ∧
      s1.files_metadata.length = s1.saved.length ∧
      s1.successful_count = s1.saved.length := by
  intro cands
  induction cands with
  | nil =>
    intro s s1 h h1 h2 h3
    injection h with h
    subst h
    exact ⟨h1, h2, h3⟩
  | cons c cs ih =>
    intro s s1 h h1 h2 h3
    unfold runLoop at h
    by_cases hb : target ≤ s.successful_count
    · rw [if_pos hb] at h
      injection h with h
      subst h
      exact ⟨h1, h2, h3⟩
    · rw [if_neg hb] at h
      cases hst : stepCoin fetch s c with
      | error e => rw [hst] at h; exact absurd h (by simp)
      | ok smid =>
        rw [hst] at h
        obtain ⟨g1, g2, g3⟩ := stepCoin_ok_lengths fetch s c smid hst h1 h2 h3
        exact ih smid s1 h g1 g2 g3

theorem enrichDF_some_colNames (df edf : DF) (he : enrichDF df = some edf) :
    edf.colNames = columns := by
  unfold enrichDF at he
  cases hc : df.getCol? "Close" with
  | none => rw [hc] at he; simp at he
  | some close =>
    rw [hc] at he
    cases hh : df.getCol? "High" with
    | none => rw [hh] at he; simp at he
    | some high =>
      rw [hh] at he
      cases hl : df.getCol? "Low" with
      | none => rw [hl] at he; simp at he
      | some low =>
        rw [hl] at he
        exact select_colNames _ _ _ (by simpa using he)

theorem enrichedOf_colNames (fetch : Candidate → FetchOutcome) (c : Candidate)
    (hv : viableB fetch c = true) :
    (enrichedOf fetch c).colNames = columns := by
  unfold viableB at hv
  cases hf : fetch c with
  | interrupt => rw [hf] at hv; simp at hv
  | exn => rw [hf] at hv; simp at hv
  | ok df =>
    rw [hf] at hv
    simp only [Bool.and_eq_true] at hv
    obtain ⟨edf, hedf⟩ := Option.isSome_iff_exists.mp hv.2
    simp only [enrichedOf, hf, hedf, Option.getD_some]
    exact enrichDF_some_colNames df edf hedf

theorem winners_viable (fetch : Candidate → FetchOutcome) (t : Nat)
    (cands : List Candidate) (c : Candidate)
    (hc : c ∈ winners fetch t cands) : viableB fetch c = true := by
  unfold winners at hc
  exact (List.mem_filter.mp (List.mem_of_mem_take hc)).2

/-! ### The claims -/

/-- C1: for every candidate sequence and every targetCount, the loop
emits at most targetCount results; its output length equals
min(targetCount, number of candidates yielding viable data); and the
acquisition calls are exactly the prefix of the candidate list walked
before the early exit fired, so once the success counter reaches the
target no further fetch is attempted for any remaining candidate. -/
theorem backfill_selector_bound (fetch : Candidate → FetchOutcome)
    (target : Nat) (cands : List Candidate)
    (hni : ∀ c ∈ cands, fetch c ≠ FetchOutcome.interrupt) :
    runLoop fetch target cands initState
      = .ok (runLoopNI fetch target cands initState) ∧
    (runLoopNI fetch target cands initState).saved.length
      = min target (cands.countP (viableB fetch)) ∧
    (runLoopNI fetch target cands initState).saved.length ≤ target ∧
    (runLoopNI fetch target cands initState).fetch_calls
      = cands.take (fetchCount fetch target cands) := by
  obtain ⟨hcnt, hsv, hdir, hfm, hfc⟩ :=
    runLoopNI_closed fetch target cands initState hni
  have hlen : (runLoopNI fetch target cands initState).saved.length
      = min target (cands.countP (viableB fetch)) := by
    rw [hsv]
    simp [initState, winners_length]
  refine ⟨runLoop_eq_NI fetch target cands initState hni, hlen, ?_, ?_⟩
  · rw [hlen]
    exact min_le_left _ _
  · rw [hfc]
    simp [initState]

/-- Witness for C1 at the spec's worked example: candidates A, B, C with
B empty and targetCount 2. -/
theorem backfill_selector_bound_witness :
    (∀ c ∈ [candA, candB, candC], demoFetch c ≠ FetchOutcome.interrupt) ∧
    (runLoop demoFetch 2 [candA, candB, candC] initState
        = .ok (runLoopNI demoFetch 2 [candA, candB, candC] initState) ∧
      (runLoopNI demoFetch 2 [candA, candB, candC] initState).saved.length
        = min 2 ([candA, candB, candC].countP (viableB demoFetch)) ∧
      (runLoopNI demoFetch 2 [candA, candB, candC] initState).saved.length ≤ 2 ∧
      (runLoopNI demoFetch 2 [candA, candB, candC] initState).fetch_calls
        = [candA, candB, candC].take
            (fetchCount demoFetch 2 [candA, candB, candC])) :=
  ⟨by decide, backfill_selector_bound demoFetch 2 [candA, candB, candC] (by decide)⟩

/-- C7: the output order equals the candidate rank order restricted to
successes, and the k-th success (1-based) receives directory index k. -/
theorem backfill_order_and_indices (fetch : Candidate → FetchOutcome)
    (target : Nat) (cands : List Candidate)
    (hni : ∀ c ∈ cands, fetch c ≠ FetchOutcome.interrupt) :
    runLoop fetch target cands initState
      = .ok (runLoopNI fetch target cands initState) ∧
    (runLoopNI fetch target cands initState).saved
      = (winners fetch target cands).map
          (fun c => (mkFilename c, enrichedOf fetch c)) ∧
    (runLoopNI fetch target cands initState).crypto_directory_data.length
      = (winners fetch target cands).length ∧
    ∀ i, i < (winners fetch target cands).length →
      (runLoopNI fetch target cands initState).crypto_directory_data.getD i
          ⟨0, "", ""⟩
        = ⟨i + 1, ((winners fetch target cands).getD i ⟨"", ""⟩).id,
            mkFilename ((winners fetch target cands).getD i ⟨"", ""⟩)⟩ := by
  obtain ⟨hcnt, hsv, hdir, hfm, hfc⟩ :=
    runLoopNI_closed fetch target cands initState hni
  simp only [show initState.successful_count = 0 from rfl,
    show initState.saved = ([] : List (String × DF)) from rfl,
    show initState.crypto_directory_data = ([] : List DirEntry) from rfl,
    Nat.sub_zero, List.nil_append] at hsv hdir
  refine ⟨runLoop_eq_NI fetch target cands initState hni, hsv, ?_, ?_⟩
  · rw [hdir, dirEntriesFrom_length]
  · intro i hi
    rw [hdir, dirEntriesFrom_getD _ 0 i hi]
    simp

/-- Witness for C7: with candidates [A (viable), B (empty), C (viable)]
and targetCount 2 the successes are exactly [A, C] in that order. -/
theorem backfill_order_and_indices_witness :
    (∀ c ∈ [candA, candB, candC], demoFetch c ≠ FetchOutcome.interrupt) ∧
    winners demoFetch 2 [candA, candB, candC] = [candA, candC] ∧
    (runLoop demoFetch 2 [candA, candB, candC] initState
        = .ok (runLoopNI demoFetch 2 [candA, candB, candC] initState) ∧
      (runLoopNI demoFetch 2 [candA, candB, candC] initState).saved
        = (winners demoFetch 2 [candA, candB, candC]).map
            (fun c => (mkFilename c, enrichedOf demoFetch c)) ∧
      (runLoopNI demoFetch 2 [candA, candB, candC] initState).crypto_directory_data.length
        = (winners demoFetch 2 [candA, candB, candC]).length ∧
      ∀ i, i < (winners demoFetch 2 [candA, candB, candC]).length →
        (runLoopNI demoFetch 2 [candA, candB, candC] initState).crypto_directory_data.getD i
            ⟨0, "", ""⟩
          = ⟨i + 1, ((winners demoFetch 2 [candA, candB, candC]).getD i ⟨"", ""⟩).id,
              mkFilename ((winners demoFetch 2 [candA, candB, candC]).getD i ⟨"", ""⟩)⟩) :=
  ⟨by decide, by decide,
    backfill_order_and_indices demoFetch 2 [candA, candB, candC] (by decide)⟩

/-- C3: for every asset the manifest resource schema equals the
subsequence of the canonical field list filtered to the columns actually
present in that asset's table, preserving canonical order (in the code
every produced table carries all canonical columns, so the filter keeps
the full list; in particular no produced table lacks sma30). -/
theorem schema_filters_present_columns (fetch : Candidate → FetchOutcome)
    (target : Nat) (cands : List Candidate)
    (hni : ∀ c ∈ cands, fetch c ≠ FetchOutcome.interrupt) :
    runLoop fetch target cands initState
      = .ok (runLoopNI fetch target cands initState) ∧
    (runLoopNI fetch target cands initState).files_metadata.length
      = (runLoopNI fetch target cands initState).saved.length ∧
    ∀ i, i < (runLoopNI fetch target cands initState).saved.length →
      ((runLoopNI fetch target cands initState).files_metadata.getD i
          ⟨"", "", []⟩).columns
        = deriveSchema canonicalFields
            (((runLoopNI fetch target cands initState).saved.getD i
                ("", ⟨[]⟩)).2.colNames) := by
  obtain ⟨hcnt, hsv, hdir, hfm, hfc⟩ :=
    runLoopNI_closed fetch target cands initState hni
  simp only [show initState.successful_count = 0 from rfl,
    show initState.saved = ([] : List (String × DF)) from rfl,
    show initState.files_metadata = ([] : List FileMeta) from rfl,
    Nat.sub_zero, List.nil_append] at hsv hfm
  refine ⟨runLoop_eq_NI fetch target cands initState hni, ?_, ?_⟩
  · rw [hsv, hfm]
    simp
  · intro i hi
    have hiW : i < (winners fetch target cands).length := by
      rw [hsv] at hi
      simpa using hi
    rw [hsv, hfm, getD_of_lt _ i _ (by simpa using hiW),
      getD_of_lt _ i _ (by simpa using hiW)]
    simp only [List.get_eq_getElem, List.getElem_map]
    have hvW : viableB fetch ((winners fetch target cands).get ⟨i, hiW⟩) = true :=
      winners_viable fetch target cands _ (List.get_mem _ _ hiW)
    show columnsMetadata
      = deriveSchema canonicalFields
          ((enrichedOf fetch ((winners fetch target cands).get ⟨i, hiW⟩)).colNames)
    rw [enrichedOf_colNames fetch _ hvW]
    decide

/-- Witness for C3 with a single viable candidate. -/
theorem schema_filters_present_columns_witness :
    (∀ c ∈ [candD], fetch31 c ≠ FetchOutcome.interrupt) ∧
    (runLoop fetch31 1 [candD] initState
        = .ok (runLoopNI fetch31 1 [candD] initState) ∧
      (runLoopNI fetch31 1 [candD] initState).files_metadata.length
        = (runLoopNI fetch31 1 [candD] initState).saved.length ∧
      ∀ i, i < (runLoopNI fetch31 1 [candD] initState).saved.length →
        ((runLoopNI fetch31 1 [candD] initState).files_metadata.getD i
            ⟨"", "", []⟩).columns
          = deriveSchema canonicalFields
              (((runLoopNI fetch31 1 [candD] initState).saved.getD i
                  ("", ⟨[]⟩)).2.colNames)) :=
  ⟨by decide, schema_filters_present_columns fetch31 1 [candD] (by decide)⟩

/-- C10: every successful candidate's persisted table and manifest
resource schema hold exactly the ten canonical columns in the fixed
order, regardless of row count. -/
theorem all_outputs_have_ten_columns (fetch : Candidate → FetchOutcome)
    (target : Nat) (cands : List Candidate)
    (hni : ∀ c ∈ cands, fetch c ≠ FetchOutcome.interrupt) :
    runLoop fetch target cands initState
      = .ok (runLoopNI fetch target cands initState) ∧
    (∀ p ∈ (runLoopNI fetch target cands initState).saved,
      p.2.colNames = columns) ∧
    (∀ m ∈ (runLoopNI fetch target cands initState).files_metadata,
      m.columns.map (fun f => f.name) = columns) := by
  obtain ⟨hcnt, hsv, hdir, hfm, hfc⟩ :=
    runLoopNI_closed fetch target cands initState hni
  simp only [show initState.successful_count = 0 from rfl,
    show initState.saved = ([] : List (String × DF)) from rfl,
    show initState.files_metadata = ([] : List FileMeta) from rfl,
    Nat.sub_zero, List.nil_append] at hsv hfm
  refine ⟨runLoop_eq_NI fetch target cands initState hni, ?_, ?_⟩
  · intro p hp
    rw [hsv] at hp
    obtain ⟨c, hcW, rfl⟩ := List.mem_map.mp hp
    exact enrichedOf_colNames fetch c (winners_viable fetch target cands c hcW)
  · intro m hm
    rw [hfm] at hm
    obtain ⟨c, hcW, rfl⟩ := List.mem_map.mp hm
    show columnsMetadata.map (fun f => f.name) = columns
    decide

/-- Witness for C10 with a one-row viable table: the row count does not
matter. -/
theorem all_outputs_have_ten_columns_witness :
    (∀ c ∈ [candA], demoFetch c ≠ FetchOutcome.interrupt) ∧
    (runLoop demoFetch 1 [candA] initState
        = .ok (runLoopNI demoFetch 1 [candA] initState) ∧
      (∀ p ∈ (runLoopNI demoFetch 1 [candA] initState).saved,
        p.2.colNames = columns) ∧
      (∀ m ∈ (runLoopNI demoFetch 1 [candA] initState).files_metadata,
        m.columns.map (fun f => f.name) = columns)) :=
  ⟨by decide, all_outputs_have_ten_columns demoFetch 1 [candA] (by decide)⟩

/-- C2 counterexample: a five-row raw table (fewer than seven rows) is
enriched to a table that still contains both the SMA_7 and the SMA_30
column, contradicting the claimed length gating. -/
theorem sma_gating_cex :
    rawDF5.nrows = 5 ∧
    (enrichDF rawDF5).map DF.colNames = some columns ∧
    "SMA_7" ∈ columns ∧ "SMA_30" ∈ columns := by decide

/-- C2 amended: the enrichment adds dailyReturn, highLowSpread, sma7 and
sma30 unconditionally, whatever the row count; for tables with fewer
than 7 (respectively 30) rows every sma7 (sma30) value is NaN, but the
column itself is always present. -/
theorem sma_columns_always_present (df edf : DF) (close high low : Col)
    (hc : df.getCol? "Close" = some close)
    (hh : df.getCol? "High" = some high)
    (hl : df.getCol? "Low" = some low)
    (he : enrichDF df = some edf) :
    edf.colNames = columns ∧
    edf.getCol? "SMA_7" = some (rollingMean 7 close) ∧
    edf.getCol? "SMA_30" = some (rollingMean 30 close) ∧
    (close.length < 7 → ∀ cell ∈ rollingMean 7 close, cell = none) ∧
    (close.length < 30 → ∀ cell ∈ rollingMean 30 close, cell = none) :=
  ⟨enrichDF_colNames df edf close high low hc hh hl he,
   enrichDF_sma7 df edf close high low hc hh hl he,
   enrichDF_sma30 df edf close high low hc hh hl he,
   fun h => rollingMean_all_none 7 close h,
   fun h => rollingMean_all_none 30 close h⟩

/-- Witness for C2 at the five-row frame. -/
theorem sma_columns_always_present_witness :
    rawDF5.getCol? "Close" = some close5 ∧
    rawDF5.getCol? "High" = some high5 ∧
    rawDF5.getCol? "Low" = some low5 ∧
    enrichDF rawDF5 = some edf5 ∧
    (edf5.colNames = columns ∧
      edf5.getCol? "SMA_7" = some (rollingMean 7 close5) ∧
      edf5.getCol? "SMA_30" = some (rollingMean 30 close5) ∧
      (close5.length < 7 → ∀ cell ∈ rollingMean 7 close5, cell = none) ∧
      (close5.length < 30 → ∀ cell ∈ rollingMean 30 close5, cell = none)) :=
  ⟨rfl, rfl, rfl, rfl,
   sma_columns_always_present rawDF5 edf5 close5 high5 low5 rfl rfl rfl rfl⟩

/-- C8: dailyReturn is undefined at row 0 and equals
(close[i] - close[i-1]) / close[i-1] * 100 from row 1 onward;
highLowSpread[i] = high[i] - low[i]; sma7[i] is the arithmetic mean of
close over rows [i-6, i] for every valid i, and sma30 likewise over a
window of 30. -/
theorem feature_formulas (df edf : DF) (closes highs lows : List ℚ)
    (hc : df.getCol? "Close" = some (closes.map some))
    (hh : df.getCol? "High" = some (highs.map some))
    (hl : df.getCol? "Low" = some (lows.map some))
    (he : enrichDF df = some edf) :
    ((edf.getCol? "Daily_Return").getD []).getD 0 none = none ∧
    (∀ i, 1 ≤ i → i < closes.length → closes.getD (i - 1) 0 ≠ 0 →
      ((edf.getCol? "Daily_Return").getD []).getD i none
        = some ((closes.getD i 0 - closes.getD (i - 1) 0)
            / closes.getD (i - 1) 0 * 100)) ∧
    (∀ i, i < highs.length → i < lows.length →
      ((edf.getCol? "High_Low_Spread").getD []).getD i none
        = some (highs.getD i 0 - lows.getD i 0)) ∧
    (∀ i, 6 ≤ i → i < closes.length →
      ((edf.getCol? "SMA_7").getD []).getD i none
        = some ((∑ j in Finset.Icc (i - 6) i, closes.getD j 0) / (7 : ℚ))) ∧
    (∀ i, 29 ≤ i → i < closes.length →
      ((edf.getCol? "SMA_30").getD []).getD i none
        = some ((∑ j in Finset.Icc (i - 29) i, closes.getD j 0) / (30 : ℚ))) := by
  have hdr := enrichDF_dailyReturn df edf _ _ _ hc hh hl he
  have hsp := enrichDF_spread df edf _ _ _ hc hh hl he
  have h7 := enrichDF_sma7 df edf _ _ _ hc hh hl he
  have h30 := enrichDF_sma30 df edf _ _ _ hc hh hl he
  refine ⟨?_, ?_, ?_, ?_, ?_⟩
  · rw [hdr, Option.getD_some, colMul_getD, pctChange_getD_zero]
    rfl
  · intro i h1 h2 h0
    rw [hdr, Option.getD_some, colMul_getD,
      pctChange_map_some_getD closes i h1 h2 h0]
    rfl
  · intro i hi1 hi2
    rw [hsp, Option.getD_some,
      colSub_getD _ _ i (by simpa using hi1) (by simpa using hi2),
      map_some_getD highs i hi1, map_some_getD lows i hi2]
    rfl
  · intro i h6 hlen
    rw [h7, Option.getD_some,
      rollingMean_map_some_getD 7 closes i (by norm_num) (by omega) hlen,
      show i + 1 - 7 = i - 6 from by omega]
    norm_num
  · intro i h29 hlen
    rw [h30, Option.getD_some,
      rollingMean_map_some_getD 30 closes i (by norm_num) (by omega) hlen,
      show i + 1 - 30 = i - 29 from by omega]
    norm_num

/-- Witness for C8 at the thirty-one row frame. -/
theorem feature_formulas_witness :
    df31.getCol? "Close" = some (closes31.map some) ∧
    df31.getCol? "High" = some (highs31.map some) ∧
    df31.getCol? "Low" = some (lows31.map some) ∧
    enrichDF df31 = some edf31 ∧
    (((edf31.getCol? "Daily_Return").getD []).getD 0 none = none ∧
      (∀ i, 1 ≤ i → i < closes31.length → closes31.getD (i - 1) 0 ≠ 0 →
        ((edf31.getCol? "Daily_Return").getD []).getD i none
          = some ((closes31.getD i 0 - closes31.getD (i - 1) 0)
              / closes31.getD (i - 1) 0 * 100)) ∧
      (∀ i, i < highs31.length → i < lows31.length →
        ((edf31.getCol? "High_Low_Spread").getD []).getD i none
          = some (highs31.getD i 0 - lows31.getD i 0)) ∧
      (∀ i, 6 ≤ i → i < closes31.length →
        ((edf31.getCol? "SMA_7").getD []).getD i none
          = some ((∑ j in Finset.Icc (i - 6) i, closes31.getD j 0) / (7 : ℚ))) ∧
      (∀ i, 29 ≤ i → i < closes31.length →
        ((edf31.getCol? "SMA_30").getD []).getD i none
          = some ((∑ j in Finset.Icc (i - 29) i, closes31.getD j 0) / (30 : ℚ)))) :=
  ⟨rfl, rfl, rfl, rfl,
   feature_formulas df31 edf31 closes31 highs31 lows31 rfl rfl rfl rfl⟩

/-- C4 counterexample: a non-empty three-row table (far below the claimed
ten-row minimum) is not skipped: it yields a saved file, a directory row
and a manifest resource. -/
theorem min_viable_length_cex :
    df3.nrows = 3 ∧ df3.empty = false ∧
    (runScript fetch3 1 [candD]).map (fun o => o.savedFiles.length) = some 1 ∧
    (runScript fetch3 1 [candD]).map (fun o => o.directoryRows.length) = some 1 ∧
    (runScript fetch3 1 [candD]).map (fun o => o.resources.length) = some 2 := by
  decide

/-- C4 amended: only an empty fetched table is skipped (there is no
minimum-length policy): the candidate contributes no output, the failure
counter is bumped, and the loop continues with the remaining candidates
without failing. -/
theorem empty_table_skip (fetch : Candidate → FetchOutcome) (target : Nat)
    (s : RunState) (c : Candidate) (cs : List Candidate) (df : DF)
    (hf : fetch c = FetchOutcome.ok df) (hemp : df.empty = true)
    (hlt : s.successful_count < target) :
    stepCoin fetch s c
      = .ok { s with failed_downloads := s.failed_downloads + 1
                     fetch_calls := s.fetch_calls ++ [c] } ∧
    runLoop fetch target (c :: cs) s
      = runLoop fetch target cs
          { s with failed_downloads := s.failed_downloads + 1
                   fetch_calls := s.fetch_calls ++ [c] } := by
  have hstep : stepCoin fetch s c
      = .ok { s with failed_downloads := s.failed_downloads + 1
                     fetch_calls := s.fetch_calls ++ [c] } := by
    simp [stepCoin, hf, hemp]
  refine ⟨hstep, ?_⟩
  show (if target ≤ s.successful_count then Except.ok s
      else match stepCoin fetch s c with
        | .ok s1 => runLoop fetch target cs s1
        | .error e => .error e)
    = runLoop fetch target cs
        { s with failed_downloads := s.failed_downloads + 1
                 fetch_calls := s.fetch_calls ++ [c] }
  rw [if_neg (by omega), hstep]

/-- Witness for C4 with an empty fetched table. -/
theorem empty_table_skip_witness :
    fetchEmptyDF candA = FetchOutcome.ok dfEmpty ∧
    dfEmpty.empty = true ∧
    initState.successful_count < 1 ∧
    (stepCoin fetchEmptyDF initState candA
        = .ok { initState with
                  failed_downloads := initState.failed_downloads + 1
                  fetch_calls := initState.fetch_calls ++ [candA] } ∧
      runLoop fetchEmptyDF 1 [candA, candB] initState
        = runLoop fetchEmptyDF 1 [candB]
            { initState with
                failed_downloads := initState.failed_downloads + 1
                fetch_calls := initState.fetch_calls ++ [candA] }) :=
  ⟨rfl, by decide, by decide,
   empty_table_skip fetchEmptyDF 1 initState candA [candB] dfEmpty rfl
     (by decide) (by decide)⟩

/-- C5: an exception raised by the fetch, or during enrichment, is caught
and treated as a skip for that candidate only: the step succeeds with
nothing but the failure counter changed, and the loop goes on to process
the remaining candidates. -/
theorem exception_skips_one_candidate (fetch : Candidate → FetchOutcome)
    (target : Nat) (s : RunState) (c : Candidate) (cs : List Candidate)
    (hlt : s.successful_count < target)
    (hx : fetch c = FetchOutcome.exn
        ∨ ∃ df, fetch c = FetchOutcome.ok df ∧ df.empty = false
            ∧ enrichDF df = none) :
    stepCoin fetch s c
      = .ok { s with failed_downloads := s.failed_downloads + 1
                     fetch_calls := s.fetch_calls ++ [c] } ∧
    runLoop fetch target (c :: cs) s
      = runLoop fetch target cs
          { s with failed_downloads := s.failed_downloads + 1
                   fetch_calls := s.fetch_calls ++ [c] } := by
  have hstep : stepCoin fetch s c
      = .ok { s with failed_downloads := s.failed_downloads + 1
                     fetch_calls := s.fetch_calls ++ [c] } := by
    rcases hx with hf | ⟨df, hf, hemp, hedf⟩
    · simp [stepCoin, hf]
    · simp [stepCoin, hf, hemp, hedf]
  refine ⟨hstep, ?_⟩
  show (if target ≤ s.successful_count then Except.ok s
      else match stepCoin fetch s c with
        | .ok s1 => runLoop fetch target cs s1
        | .error e => .error e)
    = runLoop fetch target cs
        { s with failed_downloads := s.failed_downloads + 1
                 fetch_calls := s.fetch_calls ++ [c] }
  rw [if_neg (by omega), hstep]

/-- Witness for C5 with a fetch that always raises. -/
theorem exception_skips_one_candidate_witness :
    initState.successful_count < 1 ∧
    (fetchE candA = FetchOutcome.exn
      ∨ ∃ df, fetchE candA = FetchOutcome.ok df ∧ df.empty = false
          ∧ enrichDF df = none) ∧
    (stepCoin fetchE initState candA
        = .ok { initState with
                  failed_downloads := initState.failed_downloads + 1
                  fetch_calls := initState.fetch_calls ++ [candA] } ∧
      runLoop fetchE 1 [candA, candB] initState
        = runLoop fetchE 1 [candB]
            { initState with
                failed_downloads := initState.failed_downloads + 1
                fetch_calls := initState.fetch_calls ++ [candA] }) :=
  ⟨by decide, Or.inl rfl,
   exception_skips_one_candidate fetchE 1 initState candA [candB]
     (by decide) (Or.inl rfl)⟩

/-- C6 counterexample: a stop signal arriving after one success aborts the
whole script: neither the index table nor the manifest is produced, so
the claimed unconditional flush does not happen. -/
theorem interrupt_skips_flush_cex :
    viableB fetchI candA = true ∧
    runScript fetchI 100 [candA, candB] = none := by
  decide

/-- C6 amended: the serialization block runs only after the candidate
loop returns normally; a stop signal makes the whole script die with no
index table and no manifest. When the script does finish, the index
table has exactly one row per success and the manifest exactly one
resource per success plus the directory resource. -/
theorem manifest_flush_semantics (fetch : Candidate → FetchOutcome)
    (target : Nat) (cands : List Candidate) :
    (∀ out, runScript fetch target cands = some out →
      out.directoryRows.length = out.savedFiles.length ∧
      out.resources.length = out.savedFiles.length + 1) ∧
    (∀ e, runLoop fetch target cands initState = .error e →
      runScript fetch target cands = none) := by
  constructor
  · intro out hout
    unfold runScript at hout
    cases hrl : runLoop fetch target cands initState with
    | error e => rw [hrl] at hout; simp at hout
    | ok s1 =>
      rw [hrl] at hout
      injection hout with hout
      subst hout
      obtain ⟨g1, g2, g3⟩ :=
        runLoop_ok_lengths fetch target cands initState s1 hrl rfl rfl rfl
      refine ⟨g1, ?_⟩
      show (dirFileMeta :: s1.files_metadata).length = s1.saved.length + 1
      simp [g2]
  · intro e he
    unfold runScript
    rw [he]

/-- C9 counterexample: the code writes the coin id into the filename
verbatim; no single placeholder character can make the spec's sanitize
reproduce a name holding two distinct non-alphanumeric characters. -/
theorem sanitize_filename_cex :
    mkFilename ⟨".-", "USDC"⟩ = ".-_USDC.csv" ∧
    ¬ ∃ ph : Char, sanitize ph ".-" ++ "_" ++ "USDC" ++ ".csv"
        = mkFilename ⟨".-", "USDC"⟩ := by
  refine ⟨by decide, ?_⟩
  rintro ⟨ph, hph⟩
  have hd : (sanitize ph ".-" ++ "_" ++ "USDC" ++ ".csv").data
      = (mkFilename ⟨".-", "USDC"⟩).data := by rw [hph]
  have e1 : (".-" : String).data = ['.', '-'] := rfl
  have e2 : (mkFilename ⟨".-", "USDC"⟩).data
      = ['.', '-', '_', 'U', 'S', 'D', 'C', '.', 'c', 's', 'v'] := rfl
  have hdot : ('.' : Char).isAlphanum = false := by decide
  have hdash : ('-' : Char).isAlphanum = false := by decide
  simp only [String.data_append, sanitize, e1, e2, List.map_cons, List.map_nil,
    hdot, Bool.false_eq_true, if_false, hdash] at hd
  simp only [List.cons_append, List.nil_append, List.cons.injEq] at hd
  obtain ⟨hp1, hp2, -⟩ := hd
  rw [hp1] at hp2
  exact absurd hp2 (by decide)

/-- C9 amended: for every success, the saved filename is the candidate
id used verbatim (no sanitization), an underscore, the upper-cased
symbol and the .csv extension; the directory entry carries the same
filename. -/
theorem filename_verbatim (fetch : Candidate → FetchOutcome) (target : Nat)
    (cands : List Candidate)
    (hni : ∀ c ∈ cands, fetch c ≠ FetchOutcome.interrupt) :
    runLoop fetch target cands initState
      = .ok (runLoopNI fetch target cands initState) ∧
    (runLoopNI fetch target cands initState).saved.length
      = (winners fetch target cands).length ∧
    ∀ i, i < (winners fetch target cands).length →
      ((runLoopNI fetch target cands initState).saved.getD i ("", ⟨[]⟩)).1
        = ((winners fetch target cands).getD i ⟨"", ""⟩).id ++ "_"
          ++ ((winners fetch target cands).getD i ⟨"", ""⟩).symbol
          ++ ".csv" ∧
      ((runLoopNI fetch target cands initState).crypto_directory_data.getD i
          ⟨0, "", ""⟩).fileName
        = ((runLoopNI fetch target cands initState).saved.getD i
            ("", ⟨[]⟩)).1 := by
  obtain ⟨hcnt, hsv, hdir, hfm, hfc⟩ :=
    runLoopNI_closed fetch target cands initState hni
  simp only [show initState.successful_count = 0 from rfl,
    show initState.saved = ([] : List (String × DF)) from rfl,
    show initState.crypto_directory_data = ([] : List DirEntry) from rfl,
    Nat.sub_zero, List.nil_append] at hsv hdir
  refine ⟨runLoop_eq_NI fetch target cands initState hni, ?_, ?_⟩
  · rw [hsv]
    simp
  · intro i hi
    have hgw := getD_of_lt (winners fetch target cands) i ⟨"", ""⟩ hi
    constructor
    · rw [hsv, getD_of_lt _ i _ (by simpa using hi), hgw]
      simp only [List.get_eq_getElem, List.getElem_map]
      rfl
    · rw [hdir, dirEntriesFrom_getD _ 0 i hi, hgw, hsv,
        getD_of_lt (List.map (fun c => (mkFilename c, enrichedOf fetch c))
          (winners fetch target cands)) i ("", ⟨[]⟩) (by simpa using hi)]
      simp only [List.get_eq_getElem, List.getElem_map]

/-- Witness for C9 at the worked three-candidate example. -/
theorem filename_verbatim_witness :
    (∀ c ∈ [candA, candB, candC], demoFetch c ≠ FetchOutcome.interrupt) ∧
    (runLoop demoFetch 2 [candA, candB, candC] initState
        = .ok (runLoopNI demoFetch 2 [candA, candB, candC] initState) ∧
      (runLoopNI demoFetch 2 [candA, candB, candC] initState).saved.length
        = (winners demoFetch 2 [candA, candB, candC]).length ∧
      ∀ i, i < (winners demoFetch 2 [candA, candB, candC]).length →
        ((runLoopNI demoFetch 2 [candA, candB, candC] initState).saved.getD i
            ("", ⟨[]⟩)).1
          = ((winners demoFetch 2 [candA, candB, candC]).getD i ⟨"", ""⟩).id
            ++ "_"
            ++ ((winners demoFetch 2 [candA, candB, candC]).getD i
                ⟨"", ""⟩).symbol
            ++ ".csv" ∧
        ((runLoopNI demoFetch 2 [candA, candB, candC] initState).crypto_directory_data.getD
            i ⟨0, "", ""⟩).fileName
          = ((runLoopNI demoFetch 2 [candA, candB, candC] initState).saved.getD
              i ("", ⟨[]⟩)).1) :=
  ⟨by decide, filename_verbatim demoFetch 2 [candA, candB, candC] (by decide)⟩

end CryptoTop100
